import Mathlib

/-!
Verification of the periph host FTDI serial-engine layer (MPSSE / sync
bit-bang), shallowly embedded from the Go sources.

Conventions of the embedding:

* Frequencies follow the periph physic.Frequency convention: an integer
  count of micro-hertz (Hertz = 1000000, MegaHertz = 10^12, ...), modelled
  as Nat (all frequencies appearing in the claims are non-negative).
* Bytes are modelled as Nat values < 256; byte truncation is explicit with
  a percent 256 operation where the Go code converts.
* Fallible Go functions return GoResult: panicked models a Go runtime
  panic (slice bounds violation, integer division by zero), failed models
  an error return, ok models a normal return.
* The transport (d2xx handle) is modelled as a reliable byte sink: every
  Write succeeds and the sequence of bytes handed to the transport is
  accumulated in a trace; ReadAll is fed from an explicit response list or
  oracle supplied by each theorem (the mock transport of the claims).
-/

namespace FtdiSpec

/-- Result of running a Go function that may panic, return an error value,
or succeed with a value. -/
inductive GoResult (α : Type) where
  | panicked : GoResult α
  | failed : String → GoResult α
  | ok : α → GoResult α
deriving Repr, DecidableEq

/-- Frequency units, in micro-hertz, following periph physic.Frequency. -/
def hertz : Nat := 1000000

/-- One kilo-hertz in micro-hertz. -/
def kiloHertz : Nat := 1000 * hertz

/-- One mega-hertz in micro-hertz. -/
def megaHertz : Nat := 1000 * kiloHertz

/-- One giga-hertz in micro-hertz. -/
def gigaHertz : Nat := 1000 * megaHertz

/-- MPSSE opcode constants from src/ftdi/mpsse.go. -/
def dataOut : Nat := 0x10

/-- Input enable flag of the MPSSE transfer opcode. -/
def dataIn : Nat := 0x20

/-- Falling-edge output flag of the MPSSE transfer opcode. -/
def dataOutFall : Nat := 0x01

/-- Falling-edge input flag of the MPSSE transfer opcode. -/
def dataInFall : Nat := 0x04

/-- LSB-first flag of the MPSSE transfer opcode. -/
def dataLSBF : Nat := 0x08

/-- Bit-mode (instead of byte-mode) flag of the MPSSE transfer opcode. -/
def dataBit : Nat := 0x02

/-- Tristate configuration opcode, used by I2C. -/
def dataTristate : Nat := 0x9E

/-- Set-DBus GPIO opcode. -/
def gpioSetD : Nat := 0x80

/-- Select the 30MHz clock base (disable the 5x divisor). -/
def clock30MHz : Nat := 0x8A

/-- Select the 6MHz clock base (enable the 5x divisor). -/
def clock6MHz : Nat := 0x8B

/-- Set-clock-divisor opcode. -/
def clockSetDivisor : Nat := 0x86

/-- Three-phase data clocking opcode, needed for I2C. -/
def clock3Phase : Nat := 0x8C

/-- Normal two-phase data clocking opcode. -/
def clock2Phase : Nat := 0x8D

/-- Flush-buffer-to-host opcode. -/
def flush : Nat := 0x87

/-- The MPSSE clock-select routine, embedded from handle.MPSSEClock in
src/ftdi/mpsse.go lines 260-276.  The Go code computes div as the integer
quotient base / f (physic.Frequency integer division), retries with the
5x-divided base when div does not fit the 16-bit divisor register, writes
the divisor command, and returns base / div.  A zero frequency panics at
the first division; a frequency above the base makes div zero and the
final base / div division panics, both modelled as panicked.  On success
it returns the actual frequency together with the 4 command bytes written
to the transport. -/
def MPSSEClock (f : Nat) : GoResult (Nat × List Nat) :=
  if f = 0 then .panicked
  else
    let base := 30 * megaHertz
    let div := base / f
    if 65536 ≤ div then
      let base5 := base / 5
      let div5 := base5 / f
      if 65536 ≤ div5 then .failed ("ftdi: clock frequency is too low")
      else if div5 = 0 then .panicked
      else .ok (base5 / div5,
        [clock6MHz, clockSetDivisor, (div5 - 1) % 256, ((div5 - 1) / 256) % 256])
    else if div = 0 then .panicked
    else .ok (base / div,
      [clock30MHz, clockSetDivisor, (div - 1) % 256, ((div - 1) / 256) % 256])

/-- Helper: a < (a / b + 1) * b for positive b. -/
theorem lt_div_succ_mul (a b : Nat) (hb : 0 < b) : a < (a / b + 1) * b := by
  have h1 := Nat.div_add_mod a b
  have h2 := Nat.mod_lt a hb
  calc a = b * (a / b) + a % b := h1.symm
    _ < b * (a / b) + b := by omega
    _ = (a / b + 1) * b := by ring

/-- Helper: if the requested frequency f is representable at divisor d
(that is f ≤ base / d), then d is at most base / f. -/
theorem div_le_quot {base f d : Nat} (hf : 0 < f) (hd : 0 < d)
    (h : f ≤ base / d) : d ≤ base / f := by
  have hfd : f * d ≤ base := (Nat.le_div_iff_mul_le hd).mp h
  exact (Nat.le_div_iff_mul_le hf).mpr (by linarith [hfd])

/-- CORRECTED C1, first half (counterexample to the claim as stated): the
claim says the returned actual frequency never exceeds the request, but
MPSSEClock computes the divisor as the floor of base / f, which rounds the
actual frequency UP.  At a requested 7MHz the divisor is 4 and the
returned frequency is 7.5MHz, strictly above the request. -/
theorem MPSSEClock_exceeds_request :
    MPSSEClock (7 * megaHertz) =
      .ok (7500000000000, [clock30MHz, clockSetDivisor, 3, 0]) ∧
    ¬ (7500000000000 ≤ 7 * megaHertz) := by
  constructor
  · rfl
  · decide

/-- CORRECTED C1, second half (the amended claim): for every requested
frequency f that MPSSEClock accepts, the returned actual frequency f2
satisfies f ≤ f2, and f2 is the MINIMUM rate of the form base / d (base
30MHz or 6MHz, integer divisor d in [1, 65535]) that is at least f: the
routine rounds up to the nearest representable rate, never down. -/
theorem MPSSEClock_rounds_up_to_minimum (f f2 : Nat) (cmds : List Nat)
    (h : MPSSEClock f = .ok (f2, cmds)) :
    f ≤ f2 ∧ ∀ d, 1 ≤ d → d ≤ 65535 →
      (f ≤ 30 * megaHertz / d → f2 ≤ 30 * megaHertz / d) ∧
      (f ≤ 6 * megaHertz / d → f2 ≤ 6 * megaHertz / d) := by
  have hf : 0 < f := by
    rcases Nat.eq_zero_or_pos f with h0 | h0
    · rw [MPSSEClock, if_pos h0] at h; exact absurd h (by simp)
    · exact h0
  have hbase : (30 * megaHertz : Nat) / 5 = 6 * megaHertz := by decide
  rw [MPSSEClock, if_neg (Nat.pos_iff_ne_zero.mp hf)] at h
  simp only [hbase] at h
  set M := 30 * megaHertz with hM
  set S := 6 * megaHertz with hS
  have hMS : M = 5 * S := by rw [hM, hS]; decide
  by_cases h1 : 65536 ≤ M / f
  · -- low-base branch
    rw [if_pos h1] at h
    set q5 := S / f with hq5
    by_cases h2 : 65536 ≤ q5
    · rw [if_pos h2] at h; exact absurd h (by simp)
    rw [if_neg h2] at h
    have hq5pos : 0 < q5 := by
      rcases Nat.eq_zero_or_pos q5 with h0 | h0
      · rw [if_pos h0] at h; exact absurd h (by simp)
      · exact h0
    rw [if_neg (Nat.pos_iff_ne_zero.mp hq5pos)] at h
    have hf2 : f2 = S / q5 := by
      have := congrArg (fun r => match r with
        | GoResult.ok (x, _) => x
        | _ => 0) h
      simpa using this.symm
    -- q ≤ 5 * q5 + 4, hence 5 * q5 ≥ 65535
    have hkey : M / f ≤ 5 * q5 + 4 := by
      have hlt : S < (q5 + 1) * f := by
        have := lt_div_succ_mul S f hf
        rwa [hq5]
      have hMlt : M < (5 * q5 + 5) * f := by
        calc M = 5 * S := hMS
          _ < 5 * ((q5 + 1) * f) := by
              exact (mul_lt_mul_left (by norm_num : (0:ℕ) < 5)).mpr hlt
          _ = (5 * q5 + 5) * f := by ring
      have hqf : (M / f) * f ≤ M := Nat.div_mul_le_self M f
      by_contra hcon
      push_neg at hcon
      have : (5 * q5 + 5) * f ≤ (M / f) * f := Nat.mul_le_mul_right f (by omega)
      omega
    have h5q5 : 65535 ≤ 5 * q5 := by omega
    have hle : f ≤ S / q5 := by
      refine (Nat.le_div_iff_mul_le hq5pos).mpr ?_
      have := Nat.div_mul_le_self S f
      calc f * q5 = q5 * f := by ring
        _ = (S / f) * f := by rw [hq5]
        _ ≤ S := Nat.div_mul_le_self S f
    refine ⟨hf2 ▸ hle, ?_⟩
    intro d hd1 hd65535
    constructor
    · intro hfd
      -- 30MHz case: any representable high-base divisor is at most 65535 ≤ 5*q5
      have hdq : d ≤ 5 * q5 := le_trans hd65535 h5q5
      have : M / (5 * q5) ≤ M / d := Nat.div_le_div_left hdq hd1
      have heq : M / (5 * q5) = S / q5 := by
        rw [hMS]; exact Nat.mul_div_mul_left S q5 (by norm_num)
      rw [hf2, ← heq]; exact this
    · intro hfd
      -- 6MHz case
      have hdq : d ≤ q5 := by
        rw [hq5]; exact div_le_quot hf hd1 hfd
      have hmono : S / q5 ≤ S / d := Nat.div_le_div_left hdq hd1
      rw [hf2]; exact hmono
  · -- high-base branch
    rw [if_neg h1] at h
    set q := M / f with hq
    have hqpos : 0 < q := by
      rcases Nat.eq_zero_or_pos q with h0 | h0
      · rw [if_pos h0] at h; exact absurd h (by simp)
      · exact h0
    rw [if_neg (Nat.pos_iff_ne_zero.mp hqpos)] at h
    have hf2 : f2 = M / q := by
      have := congrArg (fun r => match r with
        | GoResult.ok (x, _) => x
        | _ => 0) h
      simpa using this.symm
    have hq65535 : q ≤ 65535 := by omega
    have hle : f ≤ M / q := by
      refine (Nat.le_div_iff_mul_le hqpos).mpr ?_
      calc f * q = q * f := by ring
        _ = (M / f) * f := by rw [hq]
        _ ≤ M := Nat.div_mul_le_self M f
    refine ⟨hf2 ▸ hle, ?_⟩
    intro d hd1 _
    constructor
    · intro hfd
      have hdq : d ≤ q := by rw [hq]; exact div_le_quot hf hd1 hfd
      have hmono : M / q ≤ M / d := Nat.div_le_div_left hdq hd1
      rw [hf2]; exact hmono
    · intro hfd
      have h5d : 5 * d ≤ q := by
        have hfd5 : f ≤ M / (5 * d) := by
          have heq : M / (5 * d) = S / d := by
            rw [hMS]; exact Nat.mul_div_mul_left S d (by norm_num)
          rw [heq]; exact hfd
        rw [hq]; exact div_le_quot hf (by omega) hfd5
      have hmono : M / q ≤ M / (5 * d) := Nat.div_le_div_left h5d (by omega)
      have heq : M / (5 * d) = S / d := by
        rw [hMS]; exact Nat.mul_div_mul_left S d (by norm_num)
      rw [hf2, ← heq]; exact hmono

/-- Witness for MPSSEClock_rounds_up_to_minimum at a requested 10MHz,
which MPSSEClock accepts with divisor 3 and actual frequency 10MHz. -/
theorem MPSSEClock_rounds_up_to_minimum_witness :
    10 * megaHertz ≤ 10000000000000 := by
  exact (MPSSEClock_rounds_up_to_minimum (10 * megaHertz) 10000000000000
    [clock30MHz, clockSetDivisor, 2, 0] (by rfl)).1

/-- Cached 8-pin GPIO register pair (direction mask and value mask) of one
pin group, as held by the FT232H facade. -/
structure GpioPair where
  direction : Nat
  value : Nat
deriving Repr, DecidableEq

/-- State of an FT232H facade relevant to the SPI (MPSSE) port, the I2C bus
and the exclusivity flags, embedded from the FT232H struct of the source
together with the mutable fields of spiMPSEEPort, spiMPSEEConn and i2cBus.
The trace records every byte handed to the transport by Write and
WriteFast, in order; the model transport always accepts them. -/
structure FT232HState where
  usingI2C : Bool
  usingSPI : Bool
  dbus : GpioPair
  spiMaxFreq : Nat
  edgeInvert : Bool
  clkActiveLow : Bool
  noCS : Bool
  lsbFirst : Bool
  halfDuplex : Bool
  i2cPullUp : Bool
  trace : List Nat
deriving Repr, DecidableEq

/-- Fresh FT232H facade state right after newFT232H: InitMPSSE resets both
GPIO groups to all-input all-low, no bus is claimed, no clock cached. -/
def initFT232H : FT232HState :=
  { usingI2C := false, usingSPI := false, dbus := ⟨0, 0⟩, spiMaxFreq := 0,
    edgeInvert := false, clkActiveLow := false, noCS := false,
    lsbFirst := false, halfDuplex := false, i2cPullUp := false, trace := [] }

/-- The resetIdle helper of spiMPSEEConn: computes the idle direction and
value bytes of the D bus for the configured chip-select and clock-polarity
mode (CLK is D0, MOSI is D1, MISO is D2, CS is D3). -/
def resetIdle (noCS clkActiveLow : Bool) (p : GpioPair) : GpioPair :=
  let p1 : GpioPair :=
    if noCS then ⟨p.direction &&& 0xF8, p.value &&& 0xF8⟩
    else ⟨(p.direction &&& 0xF0) ||| 8, (p.value &&& 0xF0) ||| 8⟩
  let p2 : GpioPair := ⟨p1.direction ||| 3, p1.value⟩
  if clkActiveLow then ⟨p2.direction, p2.value ||| 1⟩ else p2

/-- Embedding of spiMPSEEPort.Connect.  The spi.Mode flag values come from
the periph conn dependency: HalfDuplex is 4, NoCS is 8, LSBFirst is 16,
plain modes are 0 to 3.  Hardware writes (MPSSEClock command, MPSSEDBus
command) are appended to the trace; validation failures return before any
of them. -/
def spiMPSEEConnect (s : FT232HState) (f m bits : Nat) :
    GoResult Unit × FT232HState :=
  if gigaHertz < f then
    (.failed ("d2xx: invalid speed; maximum supported clock is 30MHz"), s)
  else
    let f1 := if 30 * megaHertz < f then 30 * megaHertz else f
    if f1 < 100 * hertz then
      (.failed ("d2xx: invalid speed; minimum supported clock is 100Hz"), s)
    else if bits % 8 ≠ 0 then (.failed ("d2xx: bits must be multiple of 8"), s)
    else if bits ≠ 8 then (.failed ("d2xx: implement bits per word above 8"), s)
    else
      let noCS := m &&& 8 ≠ 0
      let halfDuplex := m &&& 4 ≠ 0
      let lsbFirst := m &&& 16 ≠ 0
      let m1 := m - (m &&& 28)
      let s1 := { s with noCS := noCS, halfDuplex := halfDuplex,
                         lsbFirst := lsbFirst }
      if halfDuplex then
        (.failed ("d2xx: spi.HalfDuplex is not yet supported"), s1)
      else if 3 < m1 then (.failed ("d2xx: unknown spi mode"), s1)
      else
        let s2 := { s1 with edgeInvert := m1 &&& 1 ≠ 0,
                            clkActiveLow := m1 &&& 2 ≠ 0 }
        let finishConnect := fun (s3 : FT232HState) =>
          let d := resetIdle s3.noCS s3.clkActiveLow s3.dbus
          let t4 := s3.trace ++ [gpioSetD, d.value, d.direction]
          ((.ok () : GoResult Unit),
            { s3 with dbus := d, trace := t4, usingSPI := true })
        if s2.spiMaxFreq = 0 ∨ f1 < s2.spiMaxFreq then
          match MPSSEClock f1 with
          | .panicked => (.panicked, s2)
          | .failed e => (.failed e, s2)
          | .ok (_, cmds) =>
              finishConnect { s2 with trace := s2.trace ++ cmds,
                                      spiMaxFreq := f1 }
        else finishConnect s2

/-- Embedding of spiMPSEEPort.LimitSpeed. -/
def spiMPSEELimitSpeed (s : FT232HState) (f : Nat) :
    GoResult Unit × FT232HState :=
  if gigaHertz < f then
    (.failed ("d2xx: invalid speed; maximum supported clock is 30MHz"), s)
  else
    let f1 := if 30 * megaHertz < f then 30 * megaHertz else f
    if f1 < 100 * hertz then
      (.failed ("d2xx: minimum supported clock is 100Hz"), s)
    else if s.spiMaxFreq ≠ 0 ∧ s.spiMaxFreq ≤ f1 then (.ok (), s)
    else
      let s1 := { s with spiMaxFreq := f1 }
      match MPSSEClock f1 with
      | .panicked => (.panicked, s1)
      | .failed e => (.failed e, s1)
      | .ok (_, cmds) => (.ok (), { s1 with trace := s1.trace ++ cmds })

/-- Embedding of spiMPSEEPort.Close: clears the SPI exclusivity flag, the
cached frequency ceiling and the connection mode flags. -/
def spiMPSEEClose (s : FT232HState) : GoResult Unit × FT232HState :=
  (.ok (), { s with usingSPI := false, spiMaxFreq := 0, edgeInvert := false,
                    clkActiveLow := false, noCS := false, lsbFirst := false,
                    halfDuplex := false })

/-- Embedding of FT232H.SPI: hands out the port only when neither engine
holds the facade; does not itself claim the facade. -/
def ft232hSPI (s : FT232HState) : GoResult Unit × FT232HState :=
  if s.usingI2C then (.failed ("d2xx: already using I2C"), s)
  else if s.usingSPI then (.failed ("d2xx: already using SPI"), s)
  else (.ok (), s)

/-- Embedding of i2cBus.setI2CLinesIdle: both D0 (SCL) and D1 (SDA out)
driven, idle levels high, and the cached register pair updated. -/
def setI2CLinesIdle (s : FT232HState) : GoResult Unit × FT232HState :=
  let dir := (s.dbus.direction &&& 0xF8) ||| 3
  let v := s.dbus.value &&& 0xF8
  let s1 := { s with dbus := (⟨dir, v⟩ : GpioPair) }
  (.ok (), { s1 with trace := s1.trace ++ [gpioSetD, v ||| 3, dir] })

/-- Embedding of i2cBus.setupI2C: rejects pull-up mode, otherwise enables
three-phase clocking at the default 400kHz, configures the tristate pins
and claims the facade for I2C. -/
def setupI2C (s : FT232HState) (pullUp : Bool) : GoResult Unit × FT232HState :=
  if pullUp then (.failed ("d2xx: PullUp will soon be implemented"), s)
  else
    let clk := (30 * megaHertz / (400 * kiloHertz) - 1) * 2 / 3
    let cmd0 := [clock3Phase, clock30MHz, clk % 256, clk / 256 % 256]
    let cmd := if ¬ s.i2cPullUp then cmd0 ++ [dataTristate, 7, 0] else cmd0
    let s1 := { s with trace := s.trace ++ cmd, usingI2C := true,
                       i2cPullUp := false }
    setI2CLinesIdle s1

/-- Embedding of i2cBus.stopI2C: returns to two-phase clocking and clears
the I2C exclusivity flag. -/
def stopI2C (s : FT232HState) : GoResult Unit × FT232HState :=
  let cmd0 := [clock2Phase, clock30MHz, 0, 0]
  let cmd := if ¬ s.i2cPullUp then cmd0 ++ [dataTristate, 0, 0] else cmd0
  (.ok (), { s with trace := s.trace ++ cmd, usingI2C := false })

/-- Embedding of FT232H.I2C.  The gpio.Pull values come from the periph
conn dependency: Float is 1, PullUp is 3.  On setup failure the code calls
stopI2C before returning the error. -/
def ft232hI2C (s : FT232HState) (pull : Nat) : GoResult Unit × FT232HState :=
  if pull ≠ 3 ∧ pull ≠ 1 then
    (.failed ("d2xx: I2C pull can only be PullUp or Float"), s)
  else if s.usingI2C then (.failed ("d2xx: already using I2C"), s)
  else if s.usingSPI then (.failed ("d2xx: already using SPI"), s)
  else
    match setupI2C s (pull = 3) with
    | (.ok _, s1) => (.ok (), s1)
    | (.failed e, s1) => (.failed e, (stopI2C s1).2)
    | (.panicked, s1) => (.panicked, s1)

/-- Embedding of i2cBus.SetSpeed: validates the range 100Hz to 10MHz and
then applies two thirds of the requested frequency through MPSSEClock. -/
def i2cSetSpeed (s : FT232HState) (f : Nat) : GoResult Unit × FT232HState :=
  if 10 * megaHertz < f then
    (.failed ("d2xx: invalid speed; maximum supported clock is 10MHz"), s)
  else if f < 100 * hertz then
    (.failed ("d2xx: invalid speed; minimum supported clock is 100Hz"), s)
  else
    match MPSSEClock (f * 2 / 3) with
    | .panicked => (.panicked, s)
    | .failed e => (.failed e, s)
    | .ok (_, cmds) => (.ok (), { s with trace := s.trace ++ cmds })

/-- State of an FT232R facade relevant to the synchronous bit-bang SPI
port, embedded from the FT232R struct together with the mutable fields of
spiSyncPort and spiSyncConn.  The trace records data bytes written to the
transport (control-channel calls such as SetBitMode and SetBaudRate do not
produce data bytes). -/
structure FT232RState where
  usingSPI : Bool
  dmask : Nat
  dvalue : Nat
  syncMaxFreq : Nat
  edgeInvert : Bool
  clkActiveLow : Bool
  noCS : Bool
  lsbFirst : Bool
  halfDuplex : Bool
  trace : List Nat
deriving Repr, DecidableEq

/-- Fresh FT232R facade state after newFT232R with all D pins input low. -/
def initFT232R : FT232RState :=
  { usingSPI := false, dmask := 0, dvalue := 0, syncMaxFreq := 0,
    edgeInvert := false, clkActiveLow := false, noCS := false,
    lsbFirst := false, halfDuplex := false, trace := [] }

/-- Embedding of handle.SetBaudRate: rejects rates of one giga-hertz and
above, otherwise configures the control channel. -/
def SetBaudRate (f : Nat) : GoResult Unit :=
  if gigaHertz ≤ f then .failed ("ftdi: baud rate too high") else .ok ()

/-- Embedding of FT232R.dbusSyncGPIOOutLocked: writes the cached dvalue
byte to the transport twice (the source ignores its pin and level
arguments and re-emits the cached byte). -/
def dbusSyncGPIOOutLocked (s : FT232RState) : FT232RState :=
  { s with trace := s.trace ++ [s.dvalue] ++ [s.dvalue] }

/-- Embedding of spiSyncPort.Connect for the bit-bang engine, whose
ceiling is ft232rMaxSpeed / 2 = 1.5MHz and whose clock is configured
through SetBaudRate at twice the bit rate. -/
def spiSyncConnect (s : FT232RState) (f m bits : Nat) :
    GoResult Unit × FT232RState :=
  if gigaHertz < f then
    (.failed ("d2xx: invalid speed; maximum supported clock is 1.5MHz"), s)
  else
    let f1 := if 3 * megaHertz / 2 < f then 3 * megaHertz / 2 else f
    if f1 < 100 * hertz then
      (.failed ("d2xx: invalid speed; minimum supported clock is 100Hz"), s)
    else if bits % 8 ≠ 0 then (.failed ("d2xx: bits must be multiple of 8"), s)
    else if bits ≠ 8 then (.failed ("d2xx: implement bits per word above 8"), s)
    else
      let noCS := m &&& 8 ≠ 0
      let halfDuplex := m &&& 4 ≠ 0
      let lsbFirst := m &&& 16 ≠ 0
      let m1 := m - (m &&& 28)
      let s1 := { s with noCS := noCS, halfDuplex := halfDuplex,
                         lsbFirst := lsbFirst }
      if halfDuplex then
        (.failed ("d2xx: spi.HalfDuplex is not yet supported"), s1)
      else if 3 < m1 then (.failed ("d2xx: unknown spi mode"), s1)
      else
        let s2 := { s1 with edgeInvert := m1 &&& 1 ≠ 0,
                            clkActiveLow := m1 &&& 2 ≠ 0 }
        let finishConnect := fun (s3 : FT232RState) =>
          let mask := 1 ||| 4 ||| 8 ||| (s3.dmask &&& 0xF0)
          let s4 := { s3 with dmask := mask }
          let s5 := if ¬ s4.noCS then dbusSyncGPIOOutLocked s4 else s4
          let s6 := if s5.clkActiveLow then dbusSyncGPIOOutLocked s5 else s5
          ((.ok () : GoResult Unit), { s6 with usingSPI := true })
        if s2.syncMaxFreq = 0 ∨ f1 < s2.syncMaxFreq then
          match SetBaudRate (f1 * 2) with
          | .panicked => (.panicked, s2)
          | .failed e => (.failed e, s2)
          | .ok _ => finishConnect { s2 with syncMaxFreq := f1 }
        else finishConnect s2

/-- Public operations on an FT232H facade touching the serial engines. -/
inductive FTOp where
  | spiPort : FTOp
  | spiConnect : Nat → Nat → Nat → FTOp
  | spiLimit : Nat → FTOp
  | spiClose : FTOp
  | i2cOpen : Nat → FTOp
  | i2cClose : FTOp
  | i2cSpeed : Nat → FTOp
deriving Repr, DecidableEq

/-- One public operation applied to the facade state. -/
def step (s : FT232HState) : FTOp → GoResult Unit × FT232HState
  | .spiPort => ft232hSPI s
  | .spiConnect f m bits => spiMPSEEConnect s f m bits
  | .spiLimit f => spiMPSEELimitSpeed s f
  | .spiClose => spiMPSEEClose s
  | .i2cOpen pull => ft232hI2C s pull
  | .i2cClose => stopI2C s
  | .i2cSpeed f => i2cSetSpeed s f

/-- Run a sequence of public operations, keeping the state each operation
leaves behind whether it succeeds or fails. -/
def runOps (s : FT232HState) : List FTOp → FT232HState
  | [] => s
  | op :: rest => runOps (step s op).2 rest

set_option maxHeartbeats 1000000 in
/-- Helper: a successful spiMPSEEPort.Connect always sets the SPI
exclusivity flag and never touches the I2C flag. -/
theorem spiMPSEEConnect_ok_flags (s : FT232HState) (f m bits : Nat)
    (s1 : FT232HState) (h : spiMPSEEConnect s f m bits = (.ok (), s1)) :
    s1.usingSPI = true ∧ s1.usingI2C = s.usingI2C := by
  unfold spiMPSEEConnect at h
  dsimp only at h
  repeat (first
    | (injection h with h1 h2;
       first
         | exact GoResult.noConfusion h1
         | (subst h2; exact ⟨rfl, rfl⟩))
    | split at h)

set_option maxHeartbeats 1000000 in
/-- Helper: a successful FT232H.I2C claim sets the I2C exclusivity flag,
preserves the SPI flag, and can only happen when neither flag was set. -/
theorem ft232hI2C_ok_flags (s : FT232HState) (pull : Nat)
    (s2 : FT232HState) (h : ft232hI2C s pull = (.ok (), s2)) :
    s2.usingI2C = true ∧ s2.usingSPI = s.usingSPI ∧
    s.usingSPI = false ∧ s.usingI2C = false := by
  unfold ft232hI2C setupI2C setI2CLinesIdle at h
  dsimp only at h
  split at h
  · exact GoResult.noConfusion (congrArg Prod.fst h)
  split at h
  · exact GoResult.noConfusion (congrArg Prod.fst h)
  split at h
  · exact GoResult.noConfusion (congrArg Prod.fst h)
  split at h
  case h_2 => exact GoResult.noConfusion (congrArg Prod.fst h)
  case h_3 => exact GoResult.noConfusion (congrArg Prod.fst h)
  case h_1 =>
    rename_i x a s1 heq
    split at heq
    · exact GoResult.noConfusion (congrArg Prod.fst heq)
    · injection heq with e1 e2
      subst e2
      injection h with h1 h2
      subst h2
      refine ⟨rfl, rfl, ?_, ?_⟩ <;> simp_all

/-- Helper: with the SPI flag held, FT232H.I2C with a legal pull argument
fails with one of the two already-in-use errors. -/
theorem ft232hI2C_when_spi (s : FT232HState) (pull : Nat)
    (hspi : s.usingSPI = true) (hp : pull = 1 ∨ pull = 3) :
    (ft232hI2C s pull).1 = .failed ("d2xx: already using I2C") ∨
    (ft232hI2C s pull).1 = .failed ("d2xx: already using SPI") := by
  have hcond : ¬ (pull ≠ 3 ∧ pull ≠ 1) := by
    rcases hp with h | h <;> simp [h]
  by_cases hi : s.usingI2C
  · left; simp [ft232hI2C, hcond, hi]
  · right; simp [ft232hI2C, hcond, hi, hspi]

/-- Helper: with both flags clear, FT232H.I2C in float mode succeeds. -/
theorem ft232hI2C_float_ok (s : FT232HState)
    (hI : s.usingI2C = false) (hS : s.usingSPI = false) :
    (ft232hI2C s 1).1 = .ok () := by
  simp [ft232hI2C, setupI2C, setI2CLinesIdle, hI, hS]

/-- CONFIRMED C7: after a successful SPI Connect, an I2C claim on the same
facade fails with an already-in-use error, and after a successful I2C
claim, SPI fails with the already-using-I2C error; once the owning engine
has closed, the reciprocal claim succeeds. -/
theorem ft232h_mutual_exclusion (s : FT232HState) (f m bits pull : Nat)
    (hp : pull = 1 ∨ pull = 3) :
    (∀ s1, spiMPSEEConnect s f m bits = (.ok (), s1) →
       ((ft232hI2C s1 pull).1 = .failed ("d2xx: already using I2C") ∨
        (ft232hI2C s1 pull).1 = .failed ("d2xx: already using SPI")) ∧
       (s.usingI2C = false →
        (ft232hI2C (spiMPSEEClose s1).2 1).1 = .ok ())) ∧
    (∀ s2, ft232hI2C s pull = (.ok (), s2) →
       (ft232hSPI s2).1 = .failed ("d2xx: already using I2C") ∧
       (ft232hSPI (stopI2C s2).2).1 = .ok ()) := by
  constructor
  · intro s1 hc
    obtain ⟨hspi, hi2c⟩ := spiMPSEEConnect_ok_flags s f m bits s1 hc
    refine ⟨ft232hI2C_when_spi s1 pull hspi hp, ?_⟩
    intro hI
    apply ft232hI2C_float_ok
    · simp [spiMPSEEClose, hi2c, hI]
    · simp [spiMPSEEClose]
  · intro s2 hc
    obtain ⟨hI2C, hSPIeq, hSPIfalse, hIfalse⟩ := ft232hI2C_ok_flags s pull s2 hc
    constructor
    · simp [ft232hSPI, hI2C]
    · have h1 : (stopI2C s2).2.usingI2C = false := by simp [stopI2C]
      have h2 : (stopI2C s2).2.usingSPI = false := by
        simp [stopI2C, hSPIeq, hSPIfalse]
      simp [ft232hSPI, h1, h2]

/-- Witness for ft232h_mutual_exclusion on a fresh facade: the concrete
run claims I2C first, then SPI fails, and after closing the bus SPI
becomes available again. -/
theorem ft232h_mutual_exclusion_witness :
    (ft232hSPI (ft232hI2C initFT232H 1).2).1 =
      .failed ("d2xx: already using I2C") ∧
    (ft232hSPI (stopI2C (ft232hI2C initFT232H 1).2).2).1 = .ok () := by
  have h1 : (ft232hI2C initFT232H 1).1 = .ok () := by decide
  have h := (ft232h_mutual_exclusion initFT232H megaHertz 0 8 1
    (Or.inl rfl)).2 ((ft232hI2C initFT232H 1).2) (by rw [← h1])
  exact h

/-- CODE BUG C6 (evaluation at the failing input): the sequence SPI(),
then I2C(gpio.Float), then Connect on the previously obtained port, all
succeed, and leaves BOTH exclusivity flags set, because
spiMPSEEPort.Connect claims the facade without re-checking the I2C flag;
the claimed invariant that at most one of usingSPI and usingI2C is ever
true fails in this reachable state. -/
theorem ft232h_exclusivity_violation :
    (step initFT232H .spiPort).1 = .ok () ∧
    (step (step initFT232H .spiPort).2 (.i2cOpen 1)).1 = .ok () ∧
    (step (step (step initFT232H .spiPort).2 (.i2cOpen 1)).2
      (.spiConnect megaHertz 0 8)).1 = .ok () ∧
    (runOps initFT232H [.spiPort, .i2cOpen 1, .spiConnect megaHertz 0 8]).usingSPI
      = true ∧
    (runOps initFT232H [.spiPort, .i2cOpen 1, .spiConnect megaHertz 0 8]).usingI2C
      = true := by
  decide

/-- CORRECTED C9, counterexample: the claim says any frequency above the
engine ceiling is clamped down and the connect still succeeds, but both
Connect implementations reject frequencies above one giga-hertz with an
error instead of clamping them. -/
theorem spi_connect_rejects_above_gigahertz :
    (spiMPSEEConnect initFT232H (2 * gigaHertz) 0 8).1 =
      .failed ("d2xx: invalid speed; maximum supported clock is 30MHz") ∧
    (spiSyncConnect initFT232R (2 * gigaHertz) 0 8).1 =
      .failed ("d2xx: invalid speed; maximum supported clock is 1.5MHz") := by
  decide

set_option maxHeartbeats 1000000 in
/-- CORRECTED C9, amended claim: requested frequencies above the ceiling
but at most 1GHz are clamped to the ceiling (30MHz for the MPSSE engine,
1.5MHz for the bit-bang engine) and the connect succeeds; frequencies
above 1GHz are rejected; frequencies below the 100Hz floor are rejected
with an error and the facade state (including the transport trace) is
left untouched, so no hardware I/O happens. -/
theorem spi_connect_clamps (s : FT232HState) (t : FT232RState)
    (f m bits : Nat) (hm : m < 4) (hbits : bits = 8) :
    (30 * megaHertz < f → f ≤ gigaHertz → s.spiMaxFreq = 0 →
      (spiMPSEEConnect s f m bits).1 = .ok () ∧
      (spiMPSEEConnect s f m bits).2.spiMaxFreq = 30 * megaHertz) ∧
    (f < 100 * hertz →
      (spiMPSEEConnect s f m bits).1 =
        .failed ("d2xx: invalid speed; minimum supported clock is 100Hz") ∧
      (spiMPSEEConnect s f m bits).2 = s) ∧
    (3 * megaHertz / 2 < f → f ≤ gigaHertz → t.syncMaxFreq = 0 →
      (spiSyncConnect t f m bits).1 = .ok () ∧
      (spiSyncConnect t f m bits).2.syncMaxFreq = 3 * megaHertz / 2) ∧
    (f < 100 * hertz →
      (spiSyncConnect t f m bits).1 =
        .failed ("d2xx: invalid speed; minimum supported clock is 100Hz") ∧
      (spiSyncConnect t f m bits).2 = t) := by
  have h4 : ¬ (m &&& 4 ≠ 0) := by interval_cases m <;> decide
  have h28 : m &&& 28 = 0 := by interval_cases m <;> rfl
  have hm3 : ¬ (3 < m - (m &&& 28)) := by rw [h28]; omega
  have hGm : gigaHertz = 1000000000000000 := rfl
  have hMm : (30 : Nat) * megaHertz = 30000000000000 := rfl
  have hHm : (100 : Nat) * hertz = 100000000 := rfl
  have hSm : (3 : Nat) * megaHertz / 2 = 1500000000000 := rfl
  subst hbits
  refine ⟨?_, ?_, ?_, ?_⟩
  · intro h30 h1G hmax
    have e1 : ¬ gigaHertz < f := by omega
    have hclk : MPSSEClock (30 * megaHertz) =
        .ok (30 * megaHertz, [clock30MHz, clockSetDivisor, 0, 0]) := by rfl
    unfold spiMPSEEConnect
    dsimp only
    rw [if_neg e1, if_pos h30,
      if_neg (by decide : ¬ ((30 : Nat) * megaHertz < 100 * hertz)),
      if_neg (by decide : ¬ ((8 : Nat) % 8 ≠ 0)),
      if_neg (by decide : ¬ ((8 : Nat) ≠ 8)),
      if_neg h4, if_neg hm3, if_pos (Or.inl hmax), hclk]
    exact ⟨rfl, rfl⟩
  · intro hlow
    have e1 : ¬ gigaHertz < f := by omega
    have e2 : ¬ 30 * megaHertz < f := by omega
    unfold spiMPSEEConnect
    dsimp only
    rw [if_neg e1, if_neg e2, if_pos hlow]
    exact ⟨rfl, rfl⟩
  · intro h15 h1G hmax
    have e1 : ¬ gigaHertz < f := by omega
    have hbd : SetBaudRate (3 * megaHertz / 2 * 2) = .ok () := by decide
    unfold spiSyncConnect
    dsimp only
    rw [if_neg e1, if_pos h15,
      if_neg (by decide : ¬ ((3 : Nat) * megaHertz / 2 < 100 * hertz)),
      if_neg (by decide : ¬ ((8 : Nat) % 8 ≠ 0)),
      if_neg (by decide : ¬ ((8 : Nat) ≠ 8)),
      if_neg h4, if_neg hm3, if_pos (Or.inl hmax), hbd]
    dsimp only
    constructor
    · rfl
    · split <;> split <;> rfl
  · intro hlow
    have e1 : ¬ gigaHertz < f := by omega
    have e2 : ¬ 3 * megaHertz / 2 < f := by omega
    unfold spiSyncConnect
    dsimp only
    rw [if_neg e1, if_neg e2, if_pos hlow]
    exact ⟨rfl, rfl⟩

/-- Witness for spi_connect_clamps: 40MHz on the MPSSE port is clamped to
30MHz and succeeds; 2MHz on the bit-bang port is clamped to 1.5MHz and
succeeds. -/
theorem spi_connect_clamps_witness :
    (spiMPSEEConnect initFT232H (40 * megaHertz) 0 8).1 = .ok () ∧
    (spiMPSEEConnect initFT232H (40 * megaHertz) 0 8).2.spiMaxFreq =
      30 * megaHertz ∧
    (spiSyncConnect initFT232R (2 * megaHertz) 0 8).1 = .ok () ∧
    (spiSyncConnect initFT232R (2 * megaHertz) 0 8).2.syncMaxFreq =
      3 * megaHertz / 2 := by
  have h1 := (spi_connect_clamps initFT232H initFT232R (40 * megaHertz) 0 8
    (by decide) rfl).1 (by decide) (by decide) rfl
  have h2 := ((spi_connect_clamps initFT232H initFT232R (2 * megaHertz) 0 8
    (by decide) rfl).2.2).1 (by decide) (by decide) rfl
  exact ⟨h1.1, h1.2, h2.1, h2.2⟩

/-- Helper: under the precondition 0 < f and f at most 30MHz, neither
division in MPSSEClock has a zero divisor, so the routine never hits the
modelled panic. -/
theorem MPSSEClock_safe (f : Nat) (h0 : 0 < f) (h30 : f ≤ 30 * megaHertz) :
    MPSSEClock f ≠ .panicked := by
  have hdiv : 1 ≤ 30 * megaHertz / f := (Nat.one_le_div_iff h0).mpr h30
  unfold MPSSEClock
  rw [if_neg (Nat.pos_iff_ne_zero.mp h0)]
  dsimp only
  by_cases h1 : 65536 ≤ 30 * megaHertz / f
  · rw [if_pos h1]
    have hf6 : f ≤ 6 * megaHertz := by
      have := (Nat.le_div_iff_mul_le h0).mp h1
      have hM : (30 : Nat) * megaHertz = 30000000000000 := rfl
      have hS : (6 : Nat) * megaHertz = 6000000000000 := rfl
      omega
    have hdiv5 : 1 ≤ 30 * megaHertz / 5 / f := by
      have h65 : (30 : Nat) * megaHertz / 5 = 6 * megaHertz := rfl
      rw [h65]
      exact (Nat.one_le_div_iff h0).mpr hf6
    by_cases h2 : 65536 ≤ 30 * megaHertz / 5 / f
    · rw [if_pos h2]; simp
    · rw [if_neg h2, if_neg (by omega : ¬ (30 * megaHertz / 5 / f = 0))]; simp
  · rw [if_neg h1, if_neg (by omega : ¬ (30 * megaHertz / f = 0))]; simp

set_option maxHeartbeats 1000000 in
/-- Helper: no public facade operation can reach the division-by-zero
panic of MPSSEClock, because every call site passes a frequency already
validated or clamped into the 100Hz..30MHz window (SetSpeed passes two
thirds of a frequency between 100Hz and 10MHz). -/
theorem step_never_panics (s : FT232HState) (op : FTOp) :
    (step s op).1 ≠ .panicked := by
  cases op <;> dsimp only [step]
  case spiPort => unfold ft232hSPI; split_ifs <;> simp
  case spiClose => simp [spiMPSEEClose]
  case i2cClose => simp [stopI2C]
  case i2cOpen pull =>
    unfold ft232hI2C setupI2C setI2CLinesIdle
    try dsimp only
    split_ifs <;> try simp
  case spiLimit f =>
    unfold spiMPSEELimitSpeed
    try dsimp only
    split_ifs <;> try simp
    all_goals (split <;> try simp)
    all_goals rename_i heq
    all_goals (first
      | exact absurd heq (MPSSEClock_safe _ (by decide) (by decide))
      | exact absurd heq (MPSSEClock_safe _
          (by
            have hM : (30 : Nat) * megaHertz = 30000000000000 := rfl
            have hH : (100 : Nat) * hertz = 100000000 := rfl
            omega)
          (by
            have hM : (30 : Nat) * megaHertz = 30000000000000 := rfl
            have hH : (100 : Nat) * hertz = 100000000 := rfl
            omega)))
  case spiConnect f m bits =>
    unfold spiMPSEEConnect
    try dsimp only
    split_ifs <;> try simp
    all_goals (split <;> try simp)
    all_goals rename_i heq
    all_goals (first
      | exact absurd heq (MPSSEClock_safe _ (by decide) (by decide))
      | exact absurd heq (MPSSEClock_safe _
          (by
            have hM : (30 : Nat) * megaHertz = 30000000000000 := rfl
            have hH : (100 : Nat) * hertz = 100000000 := rfl
            omega)
          (by
            have hM : (30 : Nat) * megaHertz = 30000000000000 := rfl
            have hH : (100 : Nat) * hertz = 100000000 := rfl
            omega)))
  case i2cSpeed f =>
    unfold i2cSetSpeed
    try dsimp only
    split_ifs <;> try simp
    all_goals (split <;> try simp)
    all_goals rename_i heq
    all_goals exact absurd heq (MPSSEClock_safe _
      (by
        have hT : (10 : Nat) * megaHertz = 10000000000000 := rfl
        have hH : (100 : Nat) * hertz = 100000000 := rfl
        omega)
      (by
        have hM : (30 : Nat) * megaHertz = 30000000000000 := rfl
        have hT : (10 : Nat) * megaHertz = 10000000000000 := rfl
        have hH : (100 : Nat) * hertz = 100000000 := rfl
        omega))

/-- CONFIRMED C10: under the precondition 0 < f and f at most 30MHz, the
clock-select divisor is at least 1 (in both bases) and MPSSEClock reaches
no division by zero; moreover no sequence of public facade operations
(SPI hand-out, Connect, LimitSpeed, Close, I2C open and close, I2C
SetSpeed) can reach the division-by-zero panic. -/
theorem MPSSEClock_division_safe :
    (∀ f, 0 < f → f ≤ 30 * megaHertz →
       MPSSEClock f ≠ .panicked ∧ 1 ≤ 30 * megaHertz / f ∧
       (65536 ≤ 30 * megaHertz / f → 1 ≤ 30 * megaHertz / 5 / f)) ∧
    (∀ s op, (step s op).1 ≠ .panicked) := by
  constructor
  · intro f h0 h30
    refine ⟨MPSSEClock_safe f h0 h30, (Nat.one_le_div_iff h0).mpr h30, ?_⟩
    intro h1
    have hf6 : f ≤ 30 * megaHertz / 5 := by
      have := (Nat.le_div_iff_mul_le h0).mp h1
      have hM : (30 : Nat) * megaHertz = 30000000000000 := rfl
      have hS : (30 : Nat) * megaHertz / 5 = 6000000000000 := rfl
      omega
    exact (Nat.one_le_div_iff h0).mpr hf6
  · exact step_never_panics

/-- Witness for MPSSEClock_division_safe at the concrete frequency
400kHz and the concrete public SetSpeed operation. -/
theorem MPSSEClock_division_safe_witness :
    MPSSEClock (400 * kiloHertz) ≠ .panicked ∧
    (step initFT232H (.i2cSpeed (400 * kiloHertz))).1 ≠ .panicked := by
  exact ⟨(MPSSEClock_division_safe.1 (400 * kiloHertz)
            (by decide) (by decide)).1,
         MPSSEClock_division_safe.2 initFT232H (.i2cSpeed (400 * kiloHertz))⟩

/-- Go slice expression l[lo:hi]: none models the runtime panic when the
bounds are invalid. -/
def goSlice (l : List Nat) (lo hi : Nat) : Option (List Nat) :=
  if lo ≤ hi ∧ hi ≤ l.length then some ((l.drop lo).take (hi - lo)) else none

/-- Bytes of i2cBus.setI2CStart: SCL high with SDA low four times (the
repeated command is the delay mechanism), then SCL low SDA low three
times.  dir and v are the cached direction and value bytes. -/
def i2cStartBytes (dir v : Nat) : List Nat :=
  [gpioSetD, v ||| 1, dir, gpioSetD, v ||| 1, dir, gpioSetD, v ||| 1, dir,
   gpioSetD, v ||| 1, dir,
   gpioSetD, v, dir, gpioSetD, v, dir, gpioSetD, v, dir]

/-- Bytes of i2cBus.setI2CStop: SCL low SDA low, SCL high SDA low, SCL
high SDA high, each repeated four times. -/
def i2cStopBytes (dir v : Nat) : List Nat :=
  [gpioSetD, v, dir, gpioSetD, v, dir, gpioSetD, v, dir, gpioSetD, v, dir,
   gpioSetD, v ||| 1, dir, gpioSetD, v ||| 1, dir, gpioSetD, v ||| 1, dir,
   gpioSetD, v ||| 1, dir,
   gpioSetD, v ||| 3, dir, gpioSetD, v ||| 3, dir, gpioSetD, v ||| 3, dir,
   gpioSetD, v ||| 3, dir]

/-- Bytes of i2cBus.setI2CLinesIdle for cached registers dir and v. -/
def i2cIdleCmd (dir v : Nat) : List Nat :=
  [gpioSetD, (v &&& 0xF8) ||| 3, (dir &&& 0xF8) ||| 3]

/-- Embedding of the loop body of i2cBus.writeBytes: for each byte, write
the 10-byte command (data-out on falling edge, return to idle, sample one
acknowledgement bit, flush), read the acknowledgement byte from the
transport, and fail with the NAK error when bit 0 of the response is
clear.  Returns the result, the bytes written, and the unconsumed
acknowledgement responses. -/
def i2cWriteLoop (dir v : Nat) :
    List Nat → List Nat → GoResult Unit × List Nat × List Nat
  | [], acks => (.ok (), [], acks)
  | c :: rest, acks =>
      let cmd := [dataOut ||| dataOutFall, 0, 0, c, gpioSetD, v ||| 3, dir,
                  dataIn ||| dataBit, 0, flush]
      let a := acks.headD 0
      if a &&& 1 = 0 then (.failed ("got NAK"), cmd, acks.tail)
      else
        match i2cWriteLoop dir v rest acks.tail with
        | (res, t, acks2) => (res, cmd ++ t, acks2)

/-- Embedding of the loop of i2cBus.readBytes over the indices of the
read buffer: each iteration writes the 9-byte command (sample 8 bits,
drive the acknowledgement bit - 0x80 meaning NAK on the last byte - and
return to idle), then reads into the Go slice r[i:1].  The slice bounds
are exactly those of the source; an invalid slice is the modelled panic. -/
def i2cReadLoop (dir v n : Nat) :
    List Nat → List Nat → List Nat → GoResult (List Nat) × List Nat
  | [], r, _ => (.ok r, [])
  | i :: rest, r, reads =>
      let ack := if i = n - 1 then 0x80 else 0
      let cmd := [dataIn ||| dataBit, 7, dataOut ||| dataOutFall ||| dataBit,
                  0, ack, gpioSetD, v ||| 3, dir, flush]
      match goSlice r i 1 with
      | none => (.panicked, cmd)
      | some sl =>
          let r1 := if sl.length = 1 then r.set i (reads.headD 0) else r
          match i2cReadLoop dir v n rest r1 (reads.drop sl.length) with
          | (res, t) => (res, cmd ++ t)

/-- Embedding of i2cBus.readBytes. -/
def i2cReadBytes (dir v : Nat) (r reads : List Nat) :
    GoResult (List Nat) × List Nat :=
  i2cReadLoop dir v r.length (List.range r.length) r reads

/-- Embedding of i2cBus.Tx: start condition, address byte through
writeBytes, then the write buffer, then the read buffer through
readBytes, then stop condition and line idling.  acks feeds the sampled
acknowledgement bytes and reads feeds the data bytes returned by the mock
transport; the second component is the full byte trace written to the
transport. -/
def i2cTx (dir v addr : Nat) (w r : List Nat) (acks reads : List Nat) :
    GoResult (List Nat) × List Nat :=
  let t0 := i2cStartBytes dir v
  match i2cWriteLoop dir v [addr % 256] acks with
  | (.failed e, t1, _) => (.failed e, t0 ++ t1)
  | (.panicked, t1, _) => (.panicked, t0 ++ t1)
  | (.ok _, t1, acks1) =>
    match (if w.length ≠ 0 then i2cWriteLoop dir v w acks1
           else (.ok (), ([], acks1))) with
    | (.failed e, t2, _) => (.failed e, t0 ++ t1 ++ t2)
    | (.panicked, t2, _) => (.panicked, t0 ++ t1 ++ t2)
    | (.ok _, t2, _) =>
      match (if r.length ≠ 0 then i2cReadBytes dir v r reads
             else (.ok r, [])) with
      | (.failed e, t3) => (.failed e, t0 ++ t1 ++ t2 ++ t3)
      | (.panicked, t3) => (.panicked, t0 ++ t1 ++ t2 ++ t3)
      | (.ok r1, t3) =>
          (.ok r1,
           t0 ++ t1 ++ t2 ++ t3 ++ i2cStopBytes dir v ++ i2cIdleCmd dir v)

/-- CODE BUG C2 (evaluation at the failing input): i2cBus.writeBytes
returns the NAK error when bit 0 of the sampled acknowledgement byte is
CLEAR (data line low), which in I2C terms is an ACK, and proceeds when the
line is high (a real NACK).  With a transport whose acknowledgement
samples read high (NACK per the claim and per the I2C convention), Tx of
one data byte to address 0xA0 succeeds and the write-buffer byte 0x42 IS
sent; with samples reading low (ACK), Tx aborts with the NAK error after
only the address command, never sending 0x42.  The abort-before-data-phase
mechanics match the claim, the polarity of the trigger is inverted. -/
theorem i2c_nak_polarity_inverted :
    (i2cTx 3 0 0xA0 [0x42] [] [1, 1] []).1 = .ok [] ∧
    0x42 ∈ (i2cTx 3 0 0xA0 [0x42] [] [1, 1] []).2 ∧
    (i2cTx 3 0 0xA0 [0x42] [] [0] []).1 = .failed ("got NAK") ∧
    0x42 ∉ (i2cTx 3 0 0xA0 [0x42] [] [0] []).2 := by
  decide

/-- CODE BUG C3 (evaluation at the failing input): i2cBus.readBytes reads
into the Go slice r[i:1] instead of r[i:i+1].  A 1-byte read works, a
2-byte read silently never stores the second sampled byte (r[1] keeps its
initial zero), and any read of 3 or more bytes panics with a slice-bounds
violation at i = 2 instead of returning an explicit error - also through
the public Tx entry point. -/
theorem i2c_readBytes_slice_bug :
    (i2cReadBytes 3 0 [0] [0xAA]).1 = .ok [0xAA] ∧
    (i2cReadBytes 3 0 [0, 0] [0xAA, 0xBB]).1 = .ok [0xAA, 0] ∧
    (i2cReadBytes 3 0 [0, 0, 0] [0xAA, 0xBB, 0xCC]).1 = .panicked ∧
    (i2cTx 3 0 0xA1 [] [0, 0, 0] [1] [0xAA, 0xBB, 0xCC]).1 = .panicked := by
  decide

/-- CODE BUG C8 (evaluation at the failing input): i2cBus.SetSpeed passes
f * 2 / 3 to MPSSEClock, so at the nominal 400kHz the applied serial
clock is about 267.9kHz - two thirds of f, not the claimed 1.5 x f
(600kHz).  The last conjunct shows that setupI2C in the same file, for
the same 400kHz default, configures divisor ((30MHz / f) - 1) * 2 / 3,
whose resulting serial clock IS exactly 1.5 x f, confirming 1.5 x as the
intended relation under three-phase clocking. -/
theorem i2c_setspeed_not_1_5x :
    400 * kiloHertz * 2 / 3 = 266666666666 ∧
    MPSSEClock (400 * kiloHertz * 2 / 3) =
      .ok (267857142857, [clock30MHz, clockSetDivisor, 111, 0]) ∧
    (step initFT232H (.i2cSpeed (400 * kiloHertz))).1 = .ok () ∧
    (step initFT232H (.i2cSpeed (400 * kiloHertz))).2.trace =
      [clock30MHz, clockSetDivisor, 111, 0] ∧
    ¬ (267857142857 = 3 * (400 * kiloHertz) / 2) ∧
    30 * megaHertz / ((30 * megaHertz / (400 * kiloHertz) - 1) * 2 / 3 + 1) =
      3 * (400 * kiloHertz) / 2 := by
  decide

/-- Transaction packet, embedded from the spi.Packet of the periph conn
dependency: optional write and read buffers, the keep-chip-select flag and
the declared bit width. -/
structure Packet where
  W : List Nat
  R : List Nat
  keepCS : Bool
  bitsPerWord : Nat
deriving Repr, DecidableEq

/-- Embedding of verifyBuffers: coupled duplex lengths and the 64Kb cap. -/
def verifyBuffers (w r : List Nat) : Option String :=
  if w.length ≠ 0 then
    if r.length ≠ 0 ∧ w.length ≠ r.length then
      some ("d2xx: both buffers must have the same size")
    else if 65536 < w.length then some ("d2xx: maximum buffer size is 64Kb")
    else none
  else if r.length ≠ 0 ∧ 65536 < r.length then
    some ("d2xx: maximum buffer size is 64Kb")
  else none

/-- The per-packet validation performed first by both TxPackets
implementations, in source order: KeepCS rejected, bit width must be a
multiple of 8 and either 0 or 8, then buffer checks. -/
def validatePacket (p : Packet) : Option String :=
  if p.keepCS then some ("d2xx: implement spi.Packet.KeepCS")
  else if p.bitsPerWord % 8 ≠ 0 then
    some ("d2xx: bits must be a multiple of 8")
  else if p.bitsPerWord ≠ 0 ∧ p.bitsPerWord ≠ 8 then
    some ("d2xx: implement spi.Packet.BitsPerWord")
  else verifyBuffers p.W p.R

/-- First validation error over the packet batch, if any; both TxPackets
implementations run these checks over every packet before any I/O. -/
def validatePackets : List Packet → Option String
  | [] => none
  | p :: rest =>
      match validatePacket p with
      | some e => some e
      | none => validatePackets rest

/-- Connection mode flags captured at Connect, shared by both engines. -/
structure SpiConnCfg where
  edgeInvert : Bool
  clkActiveLow : Bool
  noCS : Bool
  lsbFirst : Bool
deriving Repr, DecidableEq

/-- Embedding of mpsseTxOp: assembles the MPSSE data-transfer opcode from
the enabled directions, the falling-edge selections and the bit order. -/
def mpsseTxOp (w r ewFalling erFalling lsbf : Bool) : Nat :=
  (if lsbf then dataLSBF else 0) |||
  (if w then dataOut ||| (if ewFalling then dataOutFall else 0) else 0) |||
  (if r then dataIn ||| (if erFalling then dataInFall else 0) else 0)

/-- Five repetitions of one gpioSetD command, the delay idiom of the
MPSSE SPI engine when toggling chip select. -/
def rep5 (valByte dirByte : Nat) : List Nat :=
  List.flatten (List.replicate 5 [gpioSetD, valByte, dirByte])

/-- Read n bytes from the mock transport oracle starting at position p. -/
def oracleRange (rd : Nat → Nat) (p n : Nat) : List Nat :=
  (List.range n).map (fun i => rd (p + i))

/-- Embedding of the write-pipelining loop of spiMPSEEConn.TxPackets: cut
the write bytes into chunks that fit the 512-byte buffer together with
the pending command prefix, emit a data-transfer instruction per chunk,
and delay reads by 512 bytes behind the writes.  Arguments after the
oracle: fuel (one unit per chunk suffices since every chunk is
non-empty), remaining write bytes, remaining read length, pending
command bytes, pending read counter, oracle position.  Returns the trace,
the bytes read, the final oracle position and the remaining read
length. -/
def mpseeIOLoop (op : Nat) (rd : Nat → Nat) :
    Nat → List Nat → Nat → List Nat → Nat → Nat →
    List Nat × List Nat × Nat × Nat
  | _, [], rlen, _, _, pos => ([], [], pos, rlen)
  | 0, _, rlen, _, _, pos => ([], [], pos, rlen)
  | Nat.succ fuel, w, rlen, cmd, pendingRead, pos =>
      let chunk := min (512 - 3 - cmd.length) w.length
      let cmd2 := cmd ++ [op, (chunk - 1) % 256, (chunk - 1) / 256 % 256] ++
                  w.take chunk
      let w2 := w.drop chunk
      if 512 ≤ pendingRead ∧ rlen ≠ 0 then
        match mpseeIOLoop op rd fuel w2 (rlen - 512) []
            (pendingRead - 512 + chunk) (pos + 512) with
        | (t, ro, pos2, rlen2) =>
            (cmd2 ++ t, oracleRange rd pos 512 ++ ro, pos2, rlen2)
      else
        match mpseeIOLoop op rd fuel w2 rlen [] (pendingRead + chunk) pos with
        | (t, ro, pos2, rlen2) => (cmd2 ++ t, ro, pos2, rlen2)

/-- Embedding of one packet iteration of spiMPSEEConn.TxPackets (keptCS is
always false here because KeepCS packets never pass validation): assert
chip select with the repeated gpioSetD commands, prime the clock in modes
1 and 3, alias the write buffer to the read buffer for read-only packets,
run the pipelined I/O loop, read the remainder after a flush, and
deassert chip select.  Returns the trace, the read bytes and the next
oracle position. -/
def mpseePacket (c : SpiConnCfg) (dirByte idle start1 start2 stop : Nat)
    (ewF erF : Bool) (rd : Nat → Nat) (p : Packet) (pos : Nat) :
    List Nat × List Nat × Nat :=
  if p.W.length = 0 ∧ p.R.length = 0 then ([], [], pos)
  else
    let cmd0 := rep5 idle dirByte ++ rep5 start1 dirByte
    let cmd1 := if c.edgeInvert then cmd0 ++ rep5 start2 dirByte else cmd0
    let op := mpsseTxOp (p.W.length ≠ 0) (p.R.length ≠ 0) ewF erF c.lsbFirst
    let w0 := if p.W.length = 0 then p.R else p.W
    match mpseeIOLoop op rd w0.length w0 p.R.length cmd1 0 pos with
    | (t1, ro1, pos1, rlen1) =>
        let t2 := if rlen1 ≠ 0 then t1 ++ [flush] else t1
        let ro2 := ro1 ++ oracleRange rd pos1 rlen1
        let pos2 := pos1 + rlen1
        let t3 := t2 ++ [flush] ++ rep5 stop dirByte ++ rep5 idle dirByte
        (t3, ro2, pos2)

/-- Fold of mpseePacket over the batch. -/
def mpseePacketsLoop (c : SpiConnCfg) (dirByte idle start1 start2 stop : Nat)
    (ewF erF : Bool) (rd : Nat → Nat) :
    List Packet → Nat → List (List Nat) × List Nat
  | [], _ => ([], [])
  | p :: rest, pos =>
      match mpseePacket c dirByte idle start1 start2 stop ewF erF rd p pos with
      | (t, ro, pos1) =>
          match mpseePacketsLoop c dirByte idle start1 start2 stop ewF erF rd
              rest pos1 with
          | (ros, ts) => (ro :: ros, t ++ ts)

/-- Embedding of spiMPSEEConn.TxPackets: validate every packet first
(returning before any hardware write on failure), then compute the idle,
chip-select and clock-priming GPIO bytes from the cached register pair
and run the pipelined transfer per packet.  Returns the per-packet read
buffers and the byte trace written to the transport. -/
def spiMPSEETxPackets (c : SpiConnCfg) (dbus : GpioPair) (pkts : List Packet)
    (rd : Nat → Nat) : GoResult (List (List Nat)) × List Nat :=
  match validatePackets pkts with
  | some e => (.failed e, [])
  | none =>
      let db := resetIdle c.noCS c.clkActiveLow dbus
      let idle := db.value
      let start1 := if ¬ c.noCS then idle - (idle &&& 8) else idle
      let start2 := if c.edgeInvert then start1 ^^^ 1 else start1
      let stop := if c.edgeInvert then idle ^^^ 1 else idle
      let e0 : Bool × Bool := (true, false)
      let e1 := if c.edgeInvert then (e0.2, e0.1) else e0
      let e2 := if c.clkActiveLow then (e1.2, e1.1) else e1
      match mpseePacketsLoop c db.direction idle start1 start2 stop e2.1 e2.2
          rd pkts 0 with
      | (ros, ts) => (.ok ros, ts)

/-- Embedding of the per-byte expansion of spiSyncConn.TxPackets: each of
the 8 data bits (taken MSB-first or LSB-first) becomes two samples, the
clock-idle phase and the clock-active phase (swapped for modes 1 and 3),
with the MOSI line at bit 0 of every sample. -/
def syncEncodeByte (lsbFirst edgeInvert : Bool) (clkIdle clkActive : Nat)
    (b : Nat) : List Nat :=
  (List.range 8).flatMap fun j =>
    let bit := if (if lsbFirst then b &&& (1 <<< j) else b &&& (0x80 >>> j))
        ≠ 0 then 1 else 0
    if edgeInvert then [clkActive ||| bit, clkIdle ||| bit]
    else [clkIdle ||| bit, clkActive ||| bit]

/-- Embedding of the per-byte decimation of spiSyncConn.TxPackets: bit j
of byte i is taken from the MISO line (bit 1) of the returned sample at
position 5 + i*8*2 + j*2 + 1, the clock-active phase of that bit. -/
def syncDecodeByte (lsbFirst : Bool) (re : List Nat) (i : Nat) : Nat :=
  (List.range 8).foldl (fun b j =>
    if re.getD (5 + i * 8 * 2 + j * 2 + 1) 0 &&& 2 ≠ 0 then
      b ||| (if lsbFirst then 1 <<< j else 0x80 >>> j)
    else b) 0

/-- Decimation of a whole read buffer of length n. -/
def syncDecodePacket (lsbFirst : Bool) (re : List Nat) (n : Nat) : List Nat :=
  (List.range n).map (syncDecodeByte lsbFirst re)

/-- The loop-back transport of the claim: the MISO bit (bit 1) of every
returned sample mirrors the MOSI bit (bit 0) written at that sample
position. -/
def loopbackSample (s : Nat) : Nat := (s &&& 1) * 2

/-- Embedding of spiSyncConn.TxPackets: validate every packet while
accumulating the 16-fold expanded sizes, build the single expanded write
burst framed by five idle samples on each side, run it through the
transport (a function from written samples to returned samples, the mock
boundary at txLocked), and decimate the returned samples into each read
buffer.  Returns the per-packet read buffers and the samples written. -/
def spiSyncTxPackets (c : SpiConnCfg) (dmask dvalue : Nat)
    (pkts : List Packet) (tr : List Nat → List Nat) :
    GoResult (List (List Nat)) × List Nat :=
  match validatePackets pkts with
  | some e => (.failed e, [])
  | none =>
      let totalW := pkts.foldl
        (fun a p => if p.W.length ≠ 0 then a + 2 * 8 * p.W.length else a) 0
      let totalR := pkts.foldl
        (fun a p => if p.R.length ≠ 0 then a + 2 * 8 * p.R.length else a) 0
      let csActive := dvalue &&& dmask &&& 0xF0
      let csIdle0 := if ¬ c.noCS then csActive ||| 8 else csActive
      let clkIdle0 := csActive
      let clkActive0 := clkIdle0 ||| 4
      let clkActive := if c.clkActiveLow then clkIdle0 else clkActive0
      let clkIdle := if c.clkActiveLow then clkActive0 else clkIdle0
      let csIdle := if c.clkActiveLow then csIdle0 ||| 4 else csIdle0
      let we := [csIdle, clkIdle, clkIdle, clkIdle, clkIdle] ++
        (pkts.flatMap fun p =>
          if p.W.length = 0 ∧ p.R.length = 0 then []
          else p.W.flatMap (syncEncodeByte c.lsbFirst c.edgeInvert clkIdle
            clkActive)) ++
        [clkIdle, clkIdle, clkIdle, clkIdle, csIdle]
      let re := if totalR = 0 then [] else (tr we).take (totalR + 10)
      let outs := pkts.map fun p =>
        if p.W.length = 0 ∧ p.R.length = 0 then p.R
        else syncDecodePacket c.lsbFirst re p.R.length
      (.ok outs, we)

/-- An invalid packet in the sense of claim C5: KeepCS set, a bit width
that is not a multiple of 8 or a non-zero value other than 8, both
buffers present with different lengths, or a buffer over 65536 bytes. -/
def badPacket (p : Packet) : Prop :=
  p.keepCS = true ∨ p.bitsPerWord % 8 ≠ 0 ∨
  (p.bitsPerWord ≠ 0 ∧ p.bitsPerWord ≠ 8) ∨
  (p.W.length ≠ 0 ∧ p.R.length ≠ 0 ∧ p.W.length ≠ p.R.length) ∨
  65536 < p.W.length ∨ 65536 < p.R.length

/-- Helper: every invalid packet is caught by the per-packet checks. -/
theorem validatePacket_of_bad (p : Packet) (hb : badPacket p) :
    ∃ e, validatePacket p = some e := by
  unfold validatePacket verifyBuffers
  split_ifs <;> first
    | exact ⟨_, rfl⟩
    | (exfalso; by_cases hR0 : p.R.length = 0 <;>
        rcases hb with h | h | h | h | h | h <;> simp_all <;> omega)

/-- Helper: a batch containing an invalid packet fails validation. -/
theorem validatePackets_of_bad (pkts : List Packet)
    (hbad : ∃ p ∈ pkts, badPacket p) :
    ∃ e, validatePackets pkts = some e := by
  induction pkts with
  | nil => obtain ⟨p, hp, _⟩ := hbad; simp at hp
  | cons q rest ih =>
    obtain ⟨p, hp, hb⟩ := hbad
    unfold validatePackets
    cases hq : validatePacket q with
    | some e => exact ⟨e, rfl⟩
    | none =>
      rcases List.mem_cons.mp hp with rfl | hp2
      · obtain ⟨e, he⟩ := validatePacket_of_bad p hb
        rw [he] at hq; cases hq
      · obtain ⟨e, he⟩ := ih ⟨p, hp2, hb⟩
        exact ⟨e, by rw [he]⟩

/-- CONFIRMED C5: for both SPI transfer engines, a batch containing any
invalid packet (KeepCS set, bad bit width, mismatched duplex lengths, or
a buffer over 65536 bytes) makes TxPackets return an error with an empty
transport trace: not a single byte of hardware I/O is issued. -/
theorem txpackets_validation_pure (c c2 : SpiConnCfg) (dbus : GpioPair)
    (dmask dvalue : Nat) (pkts : List Packet) (rd : Nat → Nat)
    (tr : List Nat → List Nat)
    (hbad : ∃ p ∈ pkts, badPacket p) :
    (∃ e, spiMPSEETxPackets c dbus pkts rd = (.failed e, [])) ∧
    (∃ e, spiSyncTxPackets c2 dmask dvalue pkts tr = (.failed e, [])) := by
  obtain ⟨e, he⟩ := validatePackets_of_bad pkts hbad
  exact ⟨⟨e, by unfold spiMPSEETxPackets; rw [he]⟩,
         ⟨e, by unfold spiSyncTxPackets; rw [he]⟩⟩

/-- Witness for txpackets_validation_pure: a packet with mismatched
1-byte write and 2-byte read buffers is rejected by both engines with no
transport bytes. -/
theorem txpackets_validation_pure_witness :
    (∃ e, spiMPSEETxPackets ⟨false, false, false, false⟩ ⟨0, 0⟩
        [⟨[1], [1, 2], false, 8⟩] (fun _ => 0) = (.failed e, [])) ∧
    (∃ e, spiSyncTxPackets ⟨false, false, false, false⟩ 0 0
        [⟨[1], [1, 2], false, 8⟩] (fun l => l) = (.failed e, [])) := by
  refine txpackets_validation_pure ⟨false, false, false, false⟩
    ⟨false, false, false, false⟩ ⟨0, 0⟩ 0 0 [⟨[1], [1, 2], false, 8⟩]
    (fun _ => 0) (fun l => l) ?_
  exact ⟨⟨[1], [1, 2], false, 8⟩, by simp, by simp [badPacket]⟩


/-- Helper: each expanded byte is exactly 16 samples long (8 bits times
two clock phases). -/
theorem syncEncodeByte_length (l e : Bool) (ci ca x : Nat) :
    (syncEncodeByte l e ci ca x).length = 16 := by
  cases e <;> rfl

/-- Helper: the expansion of a byte list is 16 samples per byte. -/
theorem flatMap_enc_length (l e : Bool) (ci ca : Nat) (b : List Nat) :
    (b.flatMap (syncEncodeByte l e ci ca)).length = 16 * b.length := by
  rw [List.length_flatMap]
  rw [show List.length ∘ syncEncodeByte l e ci ca = fun _ => 16 from
    funext fun x => syncEncodeByte_length l e ci ca x]
  simp [List.map_const]
  ring

/-- Helper: getD through map at an in-bounds index. -/
theorem getD_map_of_lt (f : Nat → Nat) (l : List Nat) (k : Nat)
    (hk : k < l.length) (d d2 : Nat) :
    (l.map f).getD k d = f (l.getD k d2) := by
  rw [List.getD_eq_getElem _ _ (by simpa using hk), List.getD_eq_getElem _ _ hk]
  simp

/-- Helper: the clock-active-phase sample of bit j inside one expanded
byte carries the data bit on MOSI (bit 0). -/
theorem sample_phase2 (l e : Bool) (ci ca : Nat) (x j : Nat) (hj : j < 8) :
    (syncEncodeByte l e ci ca x).getD (j * 2 + 1) 0 =
      (if e then ci else ca) |||
      (if (if l then x &&& (1 <<< j) else x &&& (0x80 >>> j)) ≠ 0
       then 1 else 0) := by
  interval_cases j <;> cases e <;> rfl

/-- Helper: indexing a flat map of constant-16-length blocks. -/
theorem flatMap_getD (f : Nat → List Nat) (hf : ∀ x, (f x).length = 16)
    (b : List Nat) (i r : Nat) (hi : i < b.length) (hr : r < 16) :
    (b.flatMap f).getD (16 * i + r) 0 = (f (b.getD i 0)).getD r 0 := by
  induction b generalizing i with
  | nil => simp at hi
  | cons x xs ih =>
    cases i with
    | zero =>
      simp only [List.flatMap_cons, Nat.mul_zero, Nat.zero_add]
      rw [List.getD_append _ _ _ _ (by rw [hf]; exact hr)]
      simp
    | succ i =>
      simp only [List.flatMap_cons]
      rw [List.getD_append_right _ _ _ _ (by rw [hf]; omega)]
      rw [hf]
      have harith : 16 * (i + 1) + r - 16 = 16 * i + r := by omega
      rw [harith]
      have := ih i (by simpa using hi)
      simpa using this

/-- Helper: the decimation condition (MISO bit of the looped-back sample)
recovers exactly the data bit, for any clock byte with MOSI clear. -/
theorem loopback_reads_bit (clkX : Nat) (hclk : clkX % 2 = 0)
    (c : Prop) [Decidable c] :
    ((loopbackSample (clkX ||| (if c then 1 else 0)) &&& 2 ≠ 0) ↔ c) := by
  by_cases hc : c <;> simp only [hc, if_true, if_false]
  · have h1 : (clkX ||| 1) % 2 = 1 := by
      have ht : (clkX ||| 1).testBit 0 = true := by
        rw [Nat.testBit_or]
        simp
      rw [Nat.testBit_zero] at ht
      simpa using ht
    simp [loopbackSample, Nat.and_one_is_mod, h1, hc]
  · simp [loopbackSample, Nat.and_one_is_mod, hclk, hc]

set_option maxRecDepth 10000 in
/-- Helper: decimating one byte of the looped-back sample stream rebuilds
the byte, given the per-bit sample characterization. -/
theorem decode_byte_eq (lsb ei : Bool) (ci ca : Nat)
    (hclk : (if ei then ci else ca) % 2 = 0)
    (re : List Nat) (i x : Nat) (hx : x < 256)
    (hre : ∀ j, j < 8 → re.getD (5 + i * 8 * 2 + j * 2 + 1) 0 =
      loopbackSample ((if ei then ci else ca) |||
        (if (if lsb then x &&& (1 <<< j) else x &&& (0x80 >>> j)) ≠ 0
         then 1 else 0))) :
    syncDecodeByte lsb re i = x := by
  unfold syncDecodeByte
  rw [show (List.range 8) = [0, 1, 2, 3, 4, 5, 6, 7] from rfl]
  simp only [List.foldl_cons, List.foldl_nil]
  rw [hre 0 (by omega), hre 1 (by omega), hre 2 (by omega), hre 3 (by omega),
      hre 4 (by omega), hre 5 (by omega), hre 6 (by omega), hre 7 (by omega)]
  simp only [loopback_reads_bit _ hclk]
  clear hre
  revert hx
  revert x
  cases lsb <;> decide

/-- Helper: decimating the looped-back expansion of a byte list framed by
any 5-sample head and any tail rebuilds the byte list, provided both
clock-phase bytes keep the MOSI line (bit 0) clear. -/
theorem decode_roundtrip (lsb ei : Bool) (ci ca : Nat)
    (hci : ci % 2 = 0) (hca : ca % 2 = 0)
    (front back : List Nat) (hfront : front.length = 5)
    (b : List Nat) (hbyte : ∀ x ∈ b, x < 256) :
    syncDecodePacket lsb
      ((front ++ b.flatMap (syncEncodeByte lsb ei ci ca) ++ back).map
        loopbackSample)
      b.length = b := by
  have hclk : (if ei then ci else ca) % 2 = 0 := by cases ei <;> simp [hci, hca]
  have hmid : (b.flatMap (syncEncodeByte lsb ei ci ca)).length =
      16 * b.length := flatMap_enc_length lsb ei ci ca b
  apply List.ext_getElem
  · simp [syncDecodePacket]
  · intro i h1 h2
    simp only [syncDecodePacket, List.getElem_map, List.getElem_range]
    have hin : i < b.length := h2
    apply decode_byte_eq lsb ei ci ca hclk _ i (b[i])
      (hbyte _ (List.getElem_mem hin))
    intro j hj
    rw [List.map_append, List.map_append]
    rw [List.getD_append _ _ _ _ (by
      rw [List.length_append, List.length_map, List.length_map, hfront, hmid]
      omega)]
    rw [List.getD_append_right _ _ _ _ (by rw [List.length_map, hfront]; omega)]
    rw [List.length_map, hfront]
    rw [show 5 + i * 8 * 2 + j * 2 + 1 - 5 = 16 * i + (j * 2 + 1) from by omega]
    rw [List.map_flatMap]
    rw [flatMap_getD _ (fun x => by
        rw [List.length_map]; exact syncEncodeByte_length lsb ei ci ca x)
      b i (j * 2 + 1) hin (by omega)]
    rw [getD_map_of_lt _ _ _ (by rw [syncEncodeByte_length]; omega) 0 0]
    rw [sample_phase2 lsb ei ci ca _ j hj]
    rw [List.getD_eq_getElem _ _ hin]

/-- CONFIRMED C4: for a single full-duplex packet over any byte sequence
b (of legal packet size), the bit-bang engine expands every data bit into
two samples (16 samples per byte) framed by 5 idle samples on each side -
the written sample burst has exactly 16 x len(b) + 10 samples - and
decimating the loop-back sample stream (MISO bit of each returned sample
mirroring the MOSI bit written at that position) reproduces b exactly in
the packet read buffer, whatever the MSB/LSB-first, clock polarity and
chip-select configuration. -/
theorem spiSync_expand_decimate_roundtrip (lsb ei clow ncs : Bool)
    (dmask dvalue : Nat) (b : List Nat)
    (hbyte : ∀ x ∈ b, x < 256) (hlen : b.length ≤ 65536) :
    (spiSyncTxPackets ⟨ei, clow, ncs, lsb⟩ dmask dvalue
        [⟨b, List.replicate b.length 0, false, 8⟩]
        (List.map loopbackSample)).1 = .ok [b] ∧
    (spiSyncTxPackets ⟨ei, clow, ncs, lsb⟩ dmask dvalue
        [⟨b, List.replicate b.length 0, false, 8⟩]
        (List.map loopbackSample)).2.length = 16 * b.length + 10 := by
  by_cases hn : b.length = 0
  · have hb : b = [] := List.length_eq_zero.mp hn
    subst hb
    constructor
    · simp [spiSyncTxPackets, validatePackets, validatePacket, verifyBuffers]
    · simp [spiSyncTxPackets, validatePackets, validatePacket, verifyBuffers]
  · have hval : validatePackets
        [⟨b, List.replicate b.length 0, false, 8⟩] = none := by
      unfold validatePackets validatePacket verifyBuffers
      simp [hn]
      rw [if_neg (by omega : ¬ (65536 < b.length))]
      rfl
    have hA : ¬ (0 + 2 * 8 * b.length = 0) := by omega
    have hB : ¬ (b.length = 0 ∧ b.length = 0) := by simp [hn]
    unfold spiSyncTxPackets
    rw [hval]
    dsimp only
    simp only [List.foldl_cons, List.foldl_nil, List.length_replicate,
      List.flatMap_cons, List.flatMap_nil, List.map_cons, List.map_nil,
      List.append_nil]
    simp only [if_pos hn, if_neg hA, if_neg hB]
    set csA := dvalue &&& dmask &&& 240 with hcsadef
    set ciX := (if clow = true then csA ||| 4 else csA) with hcidef
    set caX := (if clow = true then csA else csA ||| 4) with hcadef
    set csIX := (if clow = true then
        (if ¬ncs = true then csA ||| 8 else csA) ||| 4
      else if ¬ncs = true then csA ||| 8 else csA) with hcsidef
    have hcsA : csA % 2 = 0 := by
      rw [hcsadef]
      have h : dvalue &&& dmask &&& 240 &&& 1 = 0 := by
        rw [Nat.and_assoc]
        simp
      rw [Nat.and_one_is_mod] at h
      exact h
    have hor4 : ∀ x : Nat, x % 2 = 0 → (x ||| 4) % 2 = 0 := by
      intro x hx
      have hx0 : x.testBit 0 = false := by
        rw [Nat.testBit_zero]
        simp [hx]
      have ht : (x ||| 4).testBit 0 = false := by
        rw [Nat.testBit_or, hx0]
        simp
      rw [Nat.testBit_zero] at ht
      have h2 : ¬ ((x ||| 4) % 2 = 1) := by simpa using ht
      omega
    constructor
    · rw [List.take_of_length_le (by
        rw [List.length_map, List.length_append, List.length_append,
          flatMap_enc_length]
        simp
        omega)]
      rw [decode_roundtrip lsb ei ciX caX
        (by rw [hcidef]; split <;> [exact hor4 _ hcsA; exact hcsA])
        (by rw [hcadef]; split <;> [exact hcsA; exact hor4 _ hcsA])
        [csIX, ciX, ciX, ciX, ciX] [ciX, ciX, ciX, ciX, csIX] rfl b hbyte]
    · rw [List.length_append, List.length_append, flatMap_enc_length]
      simp
      omega

/-- Witness for spiSync_expand_decimate_roundtrip: the loop-back of the
3-byte transfer 01 02 03 in mode 0 MSB-first decodes back to itself from
a 58-sample burst. -/
theorem spiSync_expand_decimate_roundtrip_witness :
    (spiSyncTxPackets ⟨false, false, false, false⟩ 0 0
        [⟨[1, 2, 3], List.replicate 3 0, false, 8⟩]
        (List.map loopbackSample)).1 = .ok [[1, 2, 3]] ∧
    (spiSyncTxPackets ⟨false, false, false, false⟩ 0 0
        [⟨[1, 2, 3], List.replicate 3 0, false, 8⟩]
        (List.map loopbackSample)).2.length = 58 := by
  have h := spiSync_expand_decimate_roundtrip false false false false 0 0
    [1, 2, 3] (by decide) (by decide)
  exact ⟨h.1, h.2⟩

end FtdiSpec
